import Mathlib

/-!
Verification development for `src/utilities/velocyto/run_loompy.py`.

The definitions in this file are a shallow embedding of the core of
`main` (lines 105-266 of the source file): sample discovery over an
object-store listing, regex-based grouping of fastq files into samples,
stride partitioning of the sorted sample names, the per-sample size gate,
tool-invocation failure classification, and the
invoke / upload / cleanup sequencing of the run loop.

Repository code that the source calls but that is not part of the file
(`utilities.log_util.log_command`, the `utilities.s3_util` listing helpers)
is modelled from the specification; each such definition carries a doc
comment starting with `Modelled from the spec:`.
-/

/-! ## Basic character-list utilities (Python string operations) -/

/-- `containsSub pat s` is true iff `pat` occurs as a contiguous substring of
`s` (Python's `pat in s`): some split point `k ≤ s.length` has `pat` as the
next `pat.length` characters. -/
def containsSub (pat s : List Char) : Bool :=
  (List.range (s.length + 1)).any (fun k => decide ((s.drop k).take pat.length = pat))

/-- `strEnds suf s` embeds Python's `s.endswith(suf)`. -/
def strEnds (suf s : List Char) : Bool :=
  decide (s.drop (s.length - suf.length) = suf)

/-- `basename cs` embeds `os.path.basename` for keys that do not end in a
slash: the part of the string after the last `/` (the whole string when no
slash occurs). -/
def basename (cs : List Char) : List Char :=
  ((cs.reverse.takeWhile (fun c => decide (c ≠ '/'))).reverse)

/-- `hasSubstr pat s` is Python's `pat in s` on `String`s. -/
def hasSubstr (pat s : String) : Bool :=
  containsSub pat.data s.data

/-! ## Partition selector (line 220: `sorted(sample_lists)[partition_id :: num_partitions]`)

For a step `n ≥ 1` and a start `i ≥ 0`, Python's extended slice `l[i::n]`
yields the elements at positions `i, i+n, i+2n, …` that are `< l.length`,
in increasing position order; that index set is exactly
`{j < l.length | i ≤ j ∧ (j - i) % n = 0}` enumerated in increasing order,
which is how `strideSel` renders it.  A step of `0` raises
`ValueError: slice step cannot be zero`, rendered by `pySliceStep`. -/

/-- The elements of `l` at positions `i, i+n, i+2n, …` (Python `l[i::n]` for
step `n ≥ 1`). -/
def strideSel (l : List α) (i n : Nat) : List α :=
  (((List.range l.length).filter (fun j => decide (i ≤ j ∧ (j - i) % n = 0))).filterMap
    (fun j => l.get? j))

def errSliceStep : String := "ValueError: slice step cannot be zero"

/-- Python's `l[i::n]` for non-negative `i` and `n`: a step of zero raises a
`ValueError`; otherwise the stride selection is returned (possibly empty,
never an error, whatever the relation of `i` to `n`). -/
def pySliceStep (l : List α) (i n : Nat) : Except String (List α) :=
  if n = 0 then Except.error errSliceStep else Except.ok (strideSel l i n)

/-! ### Lemmas about the stride selection -/

theorem filterMap_get_range (l : List α) :
    (List.range l.length).filterMap (fun i => l.get? i) = l := by
  induction l with
  | nil => rfl
  | cons a l ih =>
    have h1 : List.range (a :: l).length = 0 :: (List.range l.length).map Nat.succ := by
      simpa using List.range_succ_eq_map l.length
    rw [h1, List.filterMap_cons]
    simp only [List.get?_cons_zero, List.filterMap_map]
    have h2 : ((fun i => (a :: l).get? i) ∘ Nat.succ) = (fun i => l.get? i) := by
      funext i
      rfl
    rw [h2, ih]

theorem flatMap_filterMap (L : List β) (g : β → List γ) (f : γ → Option δ) :
    L.flatMap (fun b => (g b).filterMap f) = (L.flatMap g).filterMap f := by
  induction L with
  | nil => rfl
  | cons b L ih => simp [List.flatMap_cons, List.filterMap_append, ih]

theorem stride_cond_iff (n i j : Nat) (hi : i < n) :
    (i ≤ j ∧ (j - i) % n = 0) ↔ j % n = i := by
  constructor
  · rintro ⟨hij, hmod⟩
    obtain ⟨k, hk⟩ := Nat.dvd_of_mod_eq_zero hmod
    have hj : j = i + n * k := by omega
    rw [hj, Nat.add_mul_mod_self_left, Nat.mod_eq_of_lt hi]
  · intro h
    have hle : i ≤ j := h ▸ Nat.mod_le j n
    refine ⟨hle, ?_⟩
    have hdm := Nat.div_add_mod j n
    have hji : j - i = n * (j / n) := by omega
    rw [hji, Nat.mul_mod_right]

theorem sum_map_single (c : Nat) : ∀ (n k : Nat), k < n →
    (((List.range n).map (fun i => if i = k then c else 0)).sum = c) := by
  intro n
  induction n with
  | zero => intro k hk; omega
  | succ n ih =>
    intro k hk
    rw [List.range_succ, List.map_append, List.sum_append]
    by_cases h : k = n
    · subst h
      have hz : ((List.range k).map (fun i => if i = k then c else 0)).sum = 0 := by
        apply List.sum_eq_zero
        intro x hx
        obtain ⟨i, hi, hix⟩ := List.mem_map.mp hx
        have : i ≠ k := by have := List.mem_range.mp hi; omega
        simp [this] at hix
        omega
      simp [hz]
    · have hk' : k < n := by omega
      have hn : ((List.map (fun i => if i = k then c else 0) [n]).sum = 0) := by
        simp [Ne.symm, h]
      rw [ih k hk', hn]
      omega

/-- Distributing a list over the residue classes of `g` modulo the blocks of
`List.range n` is a permutation of the list, provided every value of `g` on
the list is `< n`. -/
theorem flatMap_filter_perm [DecidableEq β] (L : List β) (g : β → Nat) (n : Nat)
    (h : ∀ x ∈ L, g x < n) :
    ((List.range n).flatMap (fun i => L.filter (fun x => decide (g x = i)))).Perm L := by
  rw [List.perm_iff_count]
  intro a
  have hcount : ∀ (M : List Nat),
      ((M.flatMap (fun i => L.filter (fun x => decide (g x = i)))).count a
        = (M.map (fun i => (L.filter (fun x => decide (g x = i))).count a)).sum) := by
    intro M
    induction M with
    | nil => rfl
    | cons m M ih => simp [List.flatMap_cons, List.count_append, ih]
  rw [hcount]
  by_cases ha : a ∈ L
  · have hga : g a < n := h a ha
    have heach : ∀ i, (L.filter (fun x => decide (g x = i))).count a
        = if i = g a then L.count a else 0 := by
      intro i
      by_cases hi : i = g a
      · subst hi
        rw [if_pos rfl]
        exact List.count_filter (by simp)
      · rw [if_neg hi]
        apply List.count_eq_zero.mpr
        intro hmem
        have := (List.mem_filter.mp hmem).2
        simp at this
        exact hi (this.symm)
    have hmapeq : (List.range n).map (fun i => (L.filter (fun x => decide (g x = i))).count a)
        = (List.range n).map (fun i => if i = g a then L.count a else 0) := by
      apply List.map_congr_left
      intro i _
      exact heach i
    rw [hmapeq, sum_map_single (L.count a) n (g a) hga]
  · have hz : L.count a = 0 := List.count_eq_zero.mpr ha
    rw [hz]
    apply List.sum_eq_zero
    intro x hx
    obtain ⟨i, _, hix⟩ := List.mem_map.mp hx
    rw [← hix]
    apply List.count_eq_zero.mpr
    intro hmem
    exact ha (List.mem_filter.mp hmem).1

theorem flatMap_congr_mem (L : List β) (f g : β → List γ)
    (h : ∀ b ∈ L, f b = g b) : L.flatMap f = L.flatMap g := by
  induction L with
  | nil => rfl
  | cons b L ih =>
    rw [List.flatMap_cons, List.flatMap_cons, h b (List.mem_cons_self b L),
      ih (fun x hx => h x (List.mem_cons_of_mem b hx))]

theorem strideSel_join_perm (l : List α) (n : Nat) (hn : 1 ≤ n) :
    ((List.range n).flatMap (fun i => strideSel l i n)).Perm l := by
  unfold strideSel
  rw [flatMap_filterMap]
  have hcong : (List.range n).flatMap
        (fun i => (List.range l.length).filter (fun j => decide (i ≤ j ∧ (j - i) % n = 0)))
      = (List.range n).flatMap
        (fun i => (List.range l.length).filter (fun j => decide (j % n = i))) := by
    apply flatMap_congr_mem
    intro i hi
    apply List.filter_congr
    intro j _
    exact decide_eq_decide.mpr (stride_cond_iff n i j (List.mem_range.mp hi))
  rw [hcong]
  have hperm := flatMap_filter_perm (List.range l.length) (fun j => j % n) n
    (by intro j _; exact Nat.mod_lt j hn)
  have := hperm.filterMap (fun j => l.get? j)
  rwa [filterMap_get_range] at this

theorem strideSel_mem_iff (l : List α) (i n : Nat) (x : α) :
    x ∈ strideSel l i n ↔
      ∃ j, j < l.length ∧ i ≤ j ∧ (j - i) % n = 0 ∧ l.get? j = some x := by
  unfold strideSel
  rw [List.mem_filterMap]
  constructor
  · rintro ⟨j, hj, hget⟩
    have h1 := List.mem_filter.mp hj
    have h2 := List.mem_range.mp h1.1
    have h3 := of_decide_eq_true h1.2
    exact ⟨j, h2, h3.1, h3.2, hget⟩
  · rintro ⟨j, h1, h2, h3, h4⟩
    exact ⟨j, List.mem_filter.mpr ⟨List.mem_range.mpr h1, decide_eq_true ⟨h2, h3⟩⟩, h4⟩

theorem strideSel_empty_of_ge (l : List α) (i n : Nat) (h : l.length ≤ i) :
    strideSel l i n = [] := by
  unfold strideSel
  have : (List.range l.length).filter (fun j => decide (i ≤ j ∧ (j - i) % n = 0)) = [] := by
    apply List.filter_eq_nil_iff.mpr
    intro j hj
    have := List.mem_range.mp hj
    simp only [decide_eq_true_eq]
    rintro ⟨hij, -⟩
    omega
  rw [this, List.filterMap_nil]

/-- C1: the stride-based partitioning at line 220 (`sorted(sample_lists)
[partition_id :: num_partitions]`) is a true partition: the shard selections
for indices `0 .. n-1` joined together are a permutation of the sorted name
list (every sample exactly once, no gaps, no overlaps); the element at sorted
position `p` lands in shard `p % n`; and on a duplicate-free list (sample
names are distinct dictionary keys) two distinct shards share no element. -/
theorem stride_partition_correct (l : List α) (n : Nat) (hn : 1 ≤ n) :
    ((List.range n).flatMap (fun i => strideSel l i n)).Perm l ∧
    (∀ p, (hp : p < l.length) → l.get ⟨p, hp⟩ ∈ strideSel l (p % n) n) ∧
    (l.Nodup → ∀ i j, i < n → j < n → i ≠ j →
      ∀ x, x ∈ strideSel l i n → x ∉ strideSel l j n) := by
  refine ⟨strideSel_join_perm l n hn, ?_, ?_⟩
  · intro p hp
    apply (strideSel_mem_iff l (p % n) n _).mpr
    refine ⟨p, hp, Nat.mod_le p n, ?_, List.get?_eq_get hp⟩
    have hdm := Nat.div_add_mod p n
    have : p - p % n = n * (p / n) := by omega
    rw [this, Nat.mul_mod_right]
  · intro hnd i j hi hj hij x hxi hxj
    obtain ⟨pi, hpi, hpile, hpimod, hpiget⟩ := (strideSel_mem_iff l i n x).mp hxi
    obtain ⟨pj, hpj, hpjle, hpjmod, hpjget⟩ := (strideSel_mem_iff l j n x).mp hxj
    have hi' : pi % n = i := (stride_cond_iff n i pi hi).mp ⟨hpile, hpimod⟩
    have hj' : pj % n = j := (stride_cond_iff n j pj hj).mp ⟨hpjle, hpjmod⟩
    have hne : pi ≠ pj := by
      intro he
      exact hij (by rw [← hi', ← hj', he])
    exact hne (List.get?_inj hpi hnd (hpiget.trans hpjget.symm))

/-- Witness for C1 at a concrete input: four samples, two shards. -/
theorem stride_partition_correct_witness :
    (1 ≤ 2 ∧
      ((List.range 2).flatMap
        (fun i => strideSel (["a", "b", "c", "d"] : List String) i 2)).Perm
        ["a", "b", "c", "d"]) ∧
    strideSel (["a", "b", "c", "d"] : List String) 0 2 = ["a", "c"] ∧
    strideSel (["a", "b", "c", "d"] : List String) 1 2 = ["b", "d"] :=
  ⟨⟨by decide, (stride_partition_correct (["a", "b", "c", "d"] : List String) 2
      (by decide)).1⟩,
    by decide, by decide⟩

/-- C8 counterexample: for shard index `i = 2 ≥ n = 1` the selector at line
220 raises nothing at all — it returns the (here non-empty) stride selection,
contradicting the claimed `InvalidPartition` failure. -/
theorem slice_no_invalid_partition_cex :
    pySliceStep (["a", "b", "c"] : List String) 2 1 = Except.ok ["c"] := by
  rfl

/-- C8 amended: the selector performs no index validation.  For any step
`n ≥ 1` — in particular for every `i ≥ n` — it returns the (possibly empty)
stride selection without error, and for step `0` it fails with Python's
slice-step `ValueError`, not an `InvalidPartition` error. -/
theorem slice_no_validation (l : List String) (i n : Nat) (hn : 1 ≤ n) :
    pySliceStep l i n = Except.ok (strideSel l i n) ∧
    pySliceStep l i 0 = Except.error errSliceStep ∧
    (l.length ≤ i → strideSel l i n = []) := by
  refine ⟨?_, rfl, strideSel_empty_of_ge l i n⟩
  unfold pySliceStep
  rw [if_neg (by omega)]

/-- Witness for C8's amended statement at `i = 5 ≥ n = 2` on a three-element
list: the call succeeds with the empty selection. -/
theorem slice_no_validation_witness :
    (1 ≤ 2 ∧
      pySliceStep (["a", "b", "c"] : List String) 5 2 =
        Except.ok (strideSel (["a", "b", "c"] : List String) 5 2)) ∧
    strideSel (["a", "b", "c"] : List String) 5 2 = [] :=
  ⟨⟨by decide, (slice_no_validation ["a", "b", "c"] 5 2 (by decide)).1⟩, by decide⟩

/-! ## Filename patterns (lines 180-181)

`sample_re_smartseq2 = re.compile("([^/]+)_R\d(?:_\d+)?.fastq.gz$")`
`sample_re_10x       = re.compile("([^/]+)_L\d+_R\d(?:_\d+)?.fastq.gz$")`

Both regexes are applied with `.search` to `os.path.basename(fn)` (line 210
/ 212) and the sample name is `matched.group(1)`.  A basename contains no
slash, so whenever any match exists there is one starting at offset 0, and
backtracking gives the greedy (longest) capture for `([^/]+)`.  The dots in
`.fastq.gz` are unescaped, i.e. they match any character.  The functions
below render the tail of each pattern (everything after the capture group,
anchored at the end of the string) with explicit backtracking for `\d+` and
for the optional `(?:_\d+)?` group. -/

/-- Tail piece `.fastq.gz$`: any char, `fastq`, any char, `gz`, end. -/
def matchEnd : List Char → Bool
  | _ :: 'f' :: 'a' :: 's' :: 't' :: 'q' :: _ :: 'g' :: 'z' :: [] => true
  | _ => false

/-- `\d+` followed by `.fastq.gz$` (with backtracking over the digit run). -/
def digitsEnd : List Char → Bool
  | [] => false
  | c :: rest => c.isDigit && (matchEnd rest || digitsEnd rest)

/-- `_\d+` followed by `.fastq.gz$`. -/
def underDigitsEnd : List Char → Bool
  | [] => false
  | c :: rest => decide (c = '_') && digitsEnd rest

/-- `(?:_\d+)?.fastq.gz$`: the optional segment-index group, tried greedily
first, then the bare ending. -/
def afterR (cs : List Char) : Bool :=
  underDigitsEnd cs || matchEnd cs

/-- `_R\d(?:_\d+)?.fastq.gz$` — the whole tail of the smartseq2 pattern. -/
def matchUnderR : List Char → Bool
  | c1 :: c2 :: d :: rest =>
      decide (c1 = '_') && decide (c2 = 'R') && d.isDigit && afterR rest
  | _ => false

/-- `\d+_R\d(?:_\d+)?.fastq.gz$` (lane digits, with backtracking). -/
def laneDigits : List Char → Bool
  | [] => false
  | c :: rest => c.isDigit && (matchUnderR rest || laneDigits rest)

/-- `_L\d+_R\d(?:_\d+)?.fastq.gz$` — the whole tail of the 10x pattern. -/
def tail10x : List Char → Bool
  | c1 :: c2 :: rest => decide (c1 = '_') && decide (c2 = 'L') && laneDigits rest
  | _ => false

/-- Tail of the smartseq2 pattern (no lane marker). -/
def tailSS2 : List Char → Bool := matchUnderR

/-- All split points `k ≥ 1` of `s` at which the tail predicate `t` accepts
the remainder `s.drop k`: these are the candidate lengths of the `([^/]+)`
capture when the whole string is matched to the end anchor. -/
def splitPoints (s : List Char) (t : List Char → Bool) : List Nat :=
  (List.range s.length).filter (fun k => decide (1 ≤ k) && t (s.drop k))

/-- The greedy capture of `([^/]+)` under `re.search` on a slash-free
string: the longest prefix whose complement matches the tail pattern, or
`none` when the pattern does not occur. -/
def greedyGroup (s : List Char) (t : List Char → Bool) : Option (List Char) :=
  match (splitPoints s t).getLast? with
  | some k => some (s.take k)
  | none => none

/-- `sample_re_10x.search(os.path.basename(fn))` and `.group(1)`. -/
def sampleMatch10x (fn : String) : Option String :=
  (greedyGroup (basename fn.data) tail10x).map (fun cs => String.mk cs)

/-- `sample_re_smartseq2.search(os.path.basename(fn))` and `.group(1)`. -/
def sampleMatchSS2 (fn : String) : Option String :=
  (greedyGroup (basename fn.data) tailSS2).map (fun cs => String.mk cs)

/-! ## Technology dispatch (lines 153-157 and 208-215) -/

def t10x : String := "10x"

def tss2 : String := "smartseq2"

/-- `NameError` raised at line 157: when the technology label contains
neither `10x` nor `smartseq2` as a substring, no branch of lines 153-156
assigns `genome_dir`, and `genome_dir.mkdir(parents=True)` reads an unbound
name. -/
def errGenomeDir : String := "NameError: name genome_dir is not defined"

/-- `NameError` raised at line 213: when the technology label is not exactly
`10x` and not exactly `smartseq2`, neither branch of lines 209-212 assigns
`matched`, and `if matched:` reads an unbound name on the first candidate
file. -/
def errMatched : String := "NameError: name matched is not defined"

/-- Lines 153-157: select the genome directory by substring tests on the
technology label (`'10x' in technology`, `'smartseq2' in technology`); with
neither substring present `genome_dir` is never assigned and line 157
raises. -/
def genomeDirSel (rootDir genomeName technology : String) : Except String String :=
  if hasSubstr t10x technology then
    Except.ok (rootDir ++ "/genome/10X/" ++ genomeName)
  else if hasSubstr tss2 technology then
    Except.ok (rootDir ++ "/genome/smartseq2/" ++ genomeName)
  else
    Except.error errGenomeDir

/-- Lines 209-213: one loop iteration's pattern dispatch.  Exact string
equality selects the pattern; any other label leaves `matched` unbound. -/
def matchFor (technology fn : String) : Except String (Option String) :=
  if technology = t10x then Except.ok (sampleMatch10x fn)
  else if technology = tss2 then Except.ok (sampleMatchSS2 fn)
  else Except.error errMatched

/-- Lines 208-215: fold the candidate `(filename, size)` pairs into the
matched `(sample, filename, size)` triples, in listing order (the insertion
order of `sample_lists` / `sample_sizes`); a non-matching file contributes
nothing, and an unknown technology label raises on the first file. -/
def groupSamples (technology : String) :
    List (String × Nat) → Except String (List (String × String × Nat))
  | [] => Except.ok []
  | (fn, s) :: rest =>
    match matchFor technology fn with
    | Except.error e => Except.error e
    | Except.ok none => groupSamples technology rest
    | Except.ok (some g) =>
      match groupSamples technology rest with
      | Except.error e => Except.error e
      | Except.ok l => Except.ok ((g, fn, s) :: l)

/-- Keep the first occurrence of every element, in order. -/
def firstDedup : List String → List String
  | [] => []
  | a :: rest => a :: (firstDedup rest).filter (fun b => decide (b ≠ a))

/-- The distinct sample names, in first-occurrence (dictionary insertion)
order. -/
def sampleNames (triples : List (String × String × Nat)) : List String :=
  firstDedup (triples.map (fun t => t.1))

/-- The files grouped under one sample name (`sample_lists[name]`). -/
def sampleFilesOf (triples : List (String × String × Nat)) (name : String) :
    List String :=
  (triples.filter (fun t => decide (t.1 = name))).map (fun t => t.2.1)

/-- The sizes grouped under one sample name (`sample_sizes[name]`). -/
def sampleSizesOf (triples : List (String × String × Nat)) (name : String) :
    List Nat :=
  (triples.filter (fun t => decide (t.1 = name))).map (fun t => t.2.2)

/-- Lines 153-157 followed by lines 208-215: the genome-directory dispatch
runs during initialisation, before any candidate file is examined; the
grouping loop runs afterwards. -/
def mainGroup (rootDir genomeName technology : String)
    (files : List (String × Nat)) : Except String (List (String × String × Nat)) :=
  match genomeDirSel rootDir genomeName technology with
  | Except.error e => Except.error e
  | Except.ok _ => groupSamples technology files

/-! ## C7 / C10: grouping correctness and the unbound-name dispatch -/

/-- The two-character lane marker `_L` that every 10x-matched basename must
contain. -/
def ulMark : List Char := ['_', 'L']

theorem tail10x_shape (cs : List Char) (h : tail10x cs = true) :
    cs.take 2 = ulMark := by
  match cs with
  | [] => exact absurd h (by simp [tail10x])
  | [c] => exact absurd h (by simp [tail10x])
  | c1 :: c2 :: rest =>
    simp only [tail10x, Bool.and_eq_true, decide_eq_true_eq] at h
    obtain ⟨⟨h1, h2⟩, -⟩ := h
    simp [List.take, h1, h2, ulMark]

theorem sampleMatch10x_none (fn : String)
    (h : containsSub ulMark (basename fn.data) = false) :
    sampleMatch10x fn = none := by
  unfold sampleMatch10x greedyGroup
  suffices hsp : splitPoints (basename fn.data) tail10x = [] by
    rw [hsp]
    rfl
  apply List.filter_eq_nil_iff.mpr
  intro k hk
  simp only [Bool.and_eq_true, decide_eq_true_eq, not_and]
  intro _ htail
  have hshape := tail10x_shape _ htail
  have hmem : k ∈ List.range ((basename fn.data).length + 1) :=
    List.mem_range.mpr (by have := List.mem_range.mp hk; omega)
  have : containsSub ulMark (basename fn.data) = true := by
    apply List.any_eq_true.mpr
    refine ⟨k, hmem, ?_⟩
    simpa [ulMark] using hshape
  rw [this] at h
  exact absurd h (by simp)

def fA1 : String := "sA_L1_R1.fastq.gz"

def fA2 : String := "sA_L1_R2.fastq.gz"

def fB1 : String := "sB_L2_R1_1.fastq.gz"

def nameA : String := "sA"

def nameB : String := "sB"

def filesC7 : List (String × Nat) := [(fA1, 1), (fA2, 2), (fB1, 3)]

def triplesC7 : List (String × String × Nat) :=
  [(nameA, fA1, 1), (nameA, fA2, 2), (nameB, fB1, 3)]

/-- C7: under 10x technology the grouping of
`{sA_L1_R1.fastq.gz, sA_L1_R2.fastq.gz, sB_L2_R1_1.fastq.gz}` yields exactly
the samples `sA` (2 files) and `sB` (1 file); and any candidate whose
basename lacks the `_L` lane marker is silently dropped — the grouping
result is exactly what it would be without that file (no error, no sample
gains it). -/
theorem grouping_10x_correct :
    (groupSamples t10x filesC7 = Except.ok triplesC7 ∧
      sampleNames triplesC7 = [nameA, nameB] ∧
      sampleFilesOf triplesC7 nameA = [fA1, fA2] ∧
      sampleFilesOf triplesC7 nameB = [fB1] ∧
      sampleSizesOf triplesC7 nameA = [1, 2] ∧
      sampleSizesOf triplesC7 nameB = [3]) ∧
    (∀ fn sz rest, containsSub ulMark (basename fn.data) = false →
      groupSamples t10x ((fn, sz) :: rest) = groupSamples t10x rest) := by
  constructor
  · exact ⟨by rfl, by rfl, by rfl, by rfl, by rfl, by rfl⟩
  · intro fn sz rest h
    have hnone := sampleMatch10x_none fn h
    show (match matchFor t10x fn with
      | Except.error e => Except.error e
      | Except.ok none => groupSamples t10x rest
      | Except.ok (some g) =>
        match groupSamples t10x rest with
        | Except.error e => Except.error e
        | Except.ok l => Except.ok ((g, fn, sz) :: l)) = groupSamples t10x rest
    rw [matchFor, if_pos rfl, hnone]

def fnNoLane : String := "sC_R1.fastq.gz"

/-- Witness for C7's universal part at the laneless file `sC_R1.fastq.gz`. -/
theorem grouping_10x_correct_witness :
    containsSub ulMark (basename fnNoLane.data) = false ∧
    groupSamples t10x [(fnNoLane, 9), (fA1, 1)] = groupSamples t10x [(fA1, 1)] :=
  ⟨by decide, (grouping_10x_correct).2 fnNoLane 9 [(fA1, 1)] (by decide)⟩

def techFoo : String := "foo"

def tech10xv2 : String := "10xv2"

def rootEx : String := "/mnt"

def genomeEx : String := "human_GRCh38_gencode.v31"

/-- C10 counterexample: for the technology label `foo` (neither `10x` nor
`smartseq2`, and containing neither as a substring) with ZERO candidate
files, the run does not finish quietly with zero samples — it fails during
initialisation, because no branch of lines 153-156 assigns `genome_dir` and
line 157 reads the unbound name before any candidate file is examined. -/
theorem unknown_tech_cex :
    mainGroup rootEx genomeEx techFoo [] = Except.error errGenomeDir ∧
    techFoo ≠ t10x ∧ techFoo ≠ tss2 :=
  ⟨by rfl, by decide, by decide⟩

/-- C10 amended: the unbound-`matched` failure in the grouping loop (lines
208-215) occurs for every technology label that is not exactly `10x` and not
exactly `smartseq2` but contains one of them as a substring (such as
`10xv2`), and for those labels a run with zero candidate files raises no
error and discovers zero samples.  A label containing neither substring
never reaches the grouping loop: lines 153-157 already fail with an unbound
`genome_dir`, even with zero candidate files. -/
theorem unknown_tech_unbound (root gname tech : String)
    (h1 : tech ≠ t10x) (h2 : tech ≠ tss2) :
    ((hasSubstr t10x tech = true ∨ hasSubstr tss2 tech = true) →
      (∀ fn sz rest, mainGroup root gname tech ((fn, sz) :: rest) =
        Except.error errMatched) ∧
      mainGroup root gname tech [] = Except.ok []) ∧
    (hasSubstr t10x tech = false → hasSubstr tss2 tech = false →
      ∀ files, mainGroup root gname tech files = Except.error errGenomeDir) := by
  constructor
  · intro hsub
    have hsel : ∃ d, genomeDirSel root gname tech = Except.ok d := by
      rcases hsub with hs | hs
      · exact ⟨root ++ "/genome/10X/" ++ gname, by rw [genomeDirSel, if_pos hs]⟩
      · by_cases hx : hasSubstr t10x tech = true
        · exact ⟨root ++ "/genome/10X/" ++ gname, by rw [genomeDirSel, if_pos hx]⟩
        · refine ⟨root ++ "/genome/smartseq2/" ++ gname, ?_⟩
          rw [genomeDirSel, if_neg hx, if_pos hs]
    obtain ⟨d, hd⟩ := hsel
    constructor
    · intro fn sz rest
      rw [mainGroup, hd]
      show (match matchFor tech fn with
        | Except.error e => Except.error e
        | Except.ok none => groupSamples tech rest
        | Except.ok (some g) =>
          match groupSamples tech rest with
          | Except.error e => Except.error e
          | Except.ok l => Except.ok ((g, fn, sz) :: l)) = Except.error errMatched
      rw [matchFor, if_neg h1, if_neg h2]
    · rw [mainGroup, hd]
      rfl
  · intro hf1 hf2 files
    rw [mainGroup, genomeDirSel, if_neg (by simp [hf1]), if_neg (by simp [hf2])]

/-- Witness for C10's amended statement at technology `10xv2`: one candidate
file raises the unbound-`matched` error, zero candidate files succeed with
zero samples. -/
theorem unknown_tech_unbound_witness :
    (tech10xv2 ≠ t10x ∧ tech10xv2 ≠ tss2 ∧ hasSubstr t10x tech10xv2 = true) ∧
    mainGroup rootEx genomeEx tech10xv2 [(fA1, 1)] = Except.error errMatched ∧
    mainGroup rootEx genomeEx tech10xv2 [] = Except.ok [] := by
  refine ⟨⟨by decide, by decide, by decide⟩, ?_, ?_⟩
  · exact ((unknown_tech_unbound rootEx genomeEx tech10xv2 (by decide) (by decide)).1
      (Or.inl (by decide))).1 fA1 1 []
  · exact ((unknown_tech_unbound rootEx genomeEx tech10xv2 (by decide) (by decide)).1
      (Or.inl (by decide))).2

/-! ## C5: sample-file discovery over the object store (lines 189-203)

The listing helpers live in `utilities/s3_util.py`, which is not part of the
source file; they are modelled from the spec's object-store capability:
`list(bucket, prefix)` yields the `(key, size)` pairs of the objects sitting
directly under the prefix (one folder level), and
`list_subfolders(bucket, prefix)` yields the one-level sub-folder paths.
The store itself is a list of `(key, size)` objects of one bucket. -/

/-- The remainder of `key` after `pre ++ "/"`, when `key` starts that way. -/
def keyRest (pre key : String) : Option (List Char) :=
  if key.data.take (pre.data.length + 1) = pre.data ++ ['/'] then
    some (key.data.drop (pre.data.length + 1))
  else none

/-- Modelled from the spec: `s3u.get_size(bucket, prefix)` — the `(key,
size)` pairs of the objects directly under the prefix (non-empty remainder
containing no further slash). -/
def get_size (store : List (String × Nat)) (pre : String) : List (String × Nat) :=
  store.filter (fun o =>
    match keyRest pre o.1 with
    | some rest => decide (rest ≠ []) && !(rest.any (fun c => decide (c = '/')))
    | none => false)

/-- Modelled from the spec: `s3u.get_files(bucket, prefix)` — the keys of
the objects directly under the prefix. -/
def get_files (store : List (String × Nat)) (pre : String) : List String :=
  (get_size store pre).map (fun o => o.1)

/-- Modelled from the spec: `s3u.get_folders(bucket, prefix + "/")` — the
distinct one-level sub-folder paths under the prefix, in listing order. -/
def get_folders (store : List (String × Nat)) (preSlash : String) : List String :=
  firstDedup (store.filterMap (fun o =>
    if preSlash.data = o.1.data.take preSlash.data.length ∧
        (o.1.data.drop preSlash.data.length).any (fun c => decide (c = '/')) = true then
      some (String.mk (preSlash.data ++
        (o.1.data.drop preSlash.data.length).takeWhile (fun c => decide (c ≠ '/'))))
    else none))

def fastqSuffix : String := "fastq.gz"

/-- Lines 189-203 as written: when the flat listing is empty, the fallback
loop iterates over the sub-folders but calls
`s3u.get_size(s3_input_bucket, s3_input_prefix)` with the PARENT prefix on
every iteration — the loop variable `sample` is never used. -/
def discoverSampleFiles (store : List (String × Nat)) (pre : String) :
    List (String × Nat) :=
  if get_files store pre ≠ [] then
    (get_size store pre).filter (fun o => strEnds fastqSuffix.data o.1.data)
  else
    (get_folders store (pre ++ "/")).flatMap (fun _folder =>
      (get_size store pre).filter (fun o => strEnds fastqSuffix.data o.1.data))

/-- Follows the spec's words (§4.1): in the fallback, objects are listed
under EACH sub-folder, with the same suffix filter, and the union of all
sub-folders' results is returned. -/
def discoverSampleFilesSpec (store : List (String × Nat)) (pre : String) :
    List (String × Nat) :=
  if get_files store pre ≠ [] then
    (get_size store pre).filter (fun o => strEnds fastqSuffix.data o.1.data)
  else
    (get_folders store (pre ++ "/")).flatMap (fun folder =>
      (get_size store folder).filter (fun o => strEnds fastqSuffix.data o.1.data))

def keyXa : String := "p/a/x_L1_R1.fastq.gz"

def keyYb : String := "p/b/y_L1_R1.fastq.gz"

def storeC5 : List (String × Nat) := [(keyXa, 5), (keyYb, 7)]

def preC5 : String := "p"

/-- C5 is violated by the code (code bug): for a prefix whose flat listing
is empty and which has two non-empty sub-folders of valid fastq files, the
discovery of lines 189-203 returns NO files at all — each fallback
iteration re-lists the parent prefix (empty by assumption) instead of the
sub-folder — while the spec's discovery returns the union of both
sub-folders' files. -/
theorem fallback_listing_bug :
    get_files storeC5 preC5 = [] ∧
    get_folders storeC5 (preC5 ++ "/") = ["p/a", "p/b"] ∧
    discoverSampleFiles storeC5 preC5 = [] ∧
    discoverSampleFilesSpec storeC5 preC5 = [(keyXa, 5), (keyYb, 7)] := by
  refine ⟨rfl, ?_, rfl, ?_⟩ <;> rfl

/-! ## The per-sample run loop (lines 220-266)

Per iteration the source does, in order:
  * `result_path = run_dir / "results"` — ONE fixed path, the same on every
    iteration (line 221);
  * `result_path.mkdir(parents=True)` — `exist_ok` is not set, so an
    existing directory raises `FileExistsError` (line 222);
  * the size gate `sum(sample_sizes[sample]) < args.min_size` → `continue`
    (lines 225-227);
  * the `loompy fromfq` command is built with `sample_name` — the single
    name read from the metadata file — NOT with the loop variable `sample`
    (lines 229-236);
  * `log_command` classifies the invocation; a failure raises
    `RuntimeError("loompy failed")` (lines 240-251);
  * on success the artifact `{sample_name}.loom` is uploaded (lines
    253-259); an upload exception propagates and aborts the run;
  * cleanup runs `rm -rf dest_dir` — but `dest_dir` is an unbound name in
    this file, so evaluating the command list raises `NameError` before
    anything is removed (lines 261-262).

The loop is rendered as a fold producing the emitted events, the set of
directories existing locally (which only ever grows: nothing is ever
removed), and the first fatal error.  Tool exit codes, captured output and
upload success are oracles indexed by the processed sample. -/

/-- Modelled from the spec: `utilities.log_util.log_command` (the repo
module imported as `ut_log`; line 240 invokes it) runs the command with
stdout and stderr combined, and classifies the invocation as failed iff the
exit code is non-zero OR a known failure marker occurs in the captured
output — the exit code alone is not trusted. -/
def log_command (exitCode : Nat) (output : List Char)
    (markers : List (List Char)) : Bool :=
  decide (exitCode ≠ 0) || markers.any (fun m => containsSub m output)

inductive RunErr where
  | fileExists : String → RunErr
  | loompyFailed : RunErr
  | uploadFailed : RunErr
  | nameErrorDestDir : RunErr
  deriving DecidableEq, Repr

/-- Observable events of one run.  `removeDir` is the event `rm -rf` would
emit; the embedding can express it, but no execution path ever does, because
line 261 evaluates the unbound name `dest_dir` (raising `NameError`) before
the removal command exists. -/
inductive Ev where
  | mkdirResults : String → Ev
  | skipSmall : String → Ev
  | invoke : List String → Ev
  | uploadArtifact : String → String → Ev
  | removeDir : String → Ev
  deriving DecidableEq, Repr

structure LoopEnv where
  sampleName : String
  genomeDir : String
  metadataDir : String
  resultPath : String
  minSize : Nat
  outKeyRoot : String
  markers : List (List Char)
  exitCode : String → Nat
  toolOut : String → List Char
  uploadOk : String → Bool

/-- Lines 229-238: the `loompy fromfq` command.  Both the artifact name and
the sample argument use `sample_name` from the metadata file, identically
for every processed sample. -/
def buildCommand (env : LoopEnv) (files : List String) : List String :=
  ["loompy", "fromfq", env.sampleName ++ ".loom", env.sampleName,
    env.genomeDir, env.metadataDir] ++ files

/-- Lines 221-262: one loop iteration for `sample`.  Returns the events
emitted, the updated directory set, and the fatal error if one occurred. -/
def processSample (env : LoopEnv) (dirs : List String)
    (sample : String) (files : List String) (sizes : List Nat) :
    List Ev × List String × Option RunErr :=
  if env.resultPath ∈ dirs then
    ([], dirs, some (RunErr.fileExists env.resultPath))
  else
    if sizes.sum < env.minSize then
      ([Ev.mkdirResults env.resultPath, Ev.skipSmall sample],
        env.resultPath :: dirs, none)
    else
      if log_command (env.exitCode sample) (env.toolOut sample) env.markers then
        ([Ev.mkdirResults env.resultPath, Ev.invoke (buildCommand env files)],
          env.resultPath :: dirs, some RunErr.loompyFailed)
      else if env.uploadOk sample then
        ([Ev.mkdirResults env.resultPath, Ev.invoke (buildCommand env files),
          Ev.uploadArtifact (env.resultPath ++ "/" ++ env.sampleName ++ ".loom")
            (env.outKeyRoot ++ "/" ++ env.sampleName ++ ".loom")],
          env.resultPath :: dirs, some RunErr.nameErrorDestDir)
      else
        ([Ev.mkdirResults env.resultPath, Ev.invoke (buildCommand env files)],
          env.resultPath :: dirs, some RunErr.uploadFailed)

/-- The loop at line 220 over the samples assigned to this shard (each with
its file list and size list), stopping at the first fatal error. -/
def runLoop (env : LoopEnv) (dirs : List String) :
    List (String × List String × List Nat) → List Ev × List String × Option RunErr
  | [] => ([], dirs, none)
  | (s, fs, zs) :: rest =>
    match processSample env dirs s fs zs with
    | (evs, dirs1, some e) => (evs, dirs1, some e)
    | (evs, dirs1, none) =>
      let r := runLoop env dirs1 rest
      (evs ++ r.1, r.2.1, r.2.2)

def isRemoveDir : Ev → Bool
  | Ev.removeDir _ => true
  | _ => false

def isMkdir : Ev → Bool
  | Ev.mkdirResults _ => true
  | _ => false

def isUpload : Ev → Bool
  | Ev.uploadArtifact _ _ => true
  | _ => false

theorem processSample_no_remove (env : LoopEnv) (dirs : List String)
    (s : String) (fs : List String) (zs : List Nat) (p : String) :
    Ev.removeDir p ∉ (processSample env dirs s fs zs).1 := by
  unfold processSample
  split_ifs <;> simp

theorem processSample_dirs_mono (env : LoopEnv) (dirs : List String)
    (s : String) (fs : List String) (zs : List Nat) (d : String)
    (hd : d ∈ dirs) : d ∈ (processSample env dirs s fs zs).2.1 := by
  unfold processSample
  split_ifs <;> simp [hd]

theorem runLoop_no_remove (env : LoopEnv) (p : String) :
    ∀ (assigned : List (String × List String × List Nat)) (dirs : List String),
      Ev.removeDir p ∉ (runLoop env dirs assigned).1 := by
  intro assigned
  induction assigned with
  | nil => intro dirs; simp [runLoop]
  | cons t rest ih =>
    intro dirs
    obtain ⟨s, fs, zs⟩ := t
    unfold runLoop
    have hps := processSample_no_remove env dirs s fs zs p
    rcases hr : processSample env dirs s fs zs with ⟨evs, dirs1, err⟩
    rw [hr] at hps
    match err with
    | some e => exact hps
    | none =>
      simp only [List.mem_append]
      rintro (h | h)
      · exact hps h
      · exact ih dirs1 h

theorem runLoop_dirs_mono (env : LoopEnv) (d : String) :
    ∀ (assigned : List (String × List String × List Nat)) (dirs : List String),
      d ∈ dirs → d ∈ (runLoop env dirs assigned).2.1 := by
  intro assigned
  induction assigned with
  | nil => intro dirs hd; exact hd
  | cons t rest ih =>
    intro dirs hd
    obtain ⟨s, fs, zs⟩ := t
    unfold runLoop
    have hps := processSample_dirs_mono env dirs s fs zs d hd
    rcases hr : processSample env dirs s fs zs with ⟨evs, dirs1, err⟩
    rw [hr] at hps
    match err with
    | some e => exact hps
    | none => exact ih dirs1 hps

/-- C3: removal of local state never happens unless the upload was confirmed
— in fact it never happens at all (the cleanup line evaluates the unbound
name `dest_dir` before any removal); the local directory set only grows; and
when the upload of the first processed sample raises, the run stops right
there with the upload error, the working directory (inputs and artifact)
still present and no removal event emitted. -/
theorem publish_then_cleanup (env : LoopEnv) :
    (∀ dirs assigned p, Ev.removeDir p ∉ (runLoop env dirs assigned).1) ∧
    (∀ dirs assigned d, d ∈ dirs → d ∈ (runLoop env dirs assigned).2.1) ∧
    (∀ dirs s fs zs rest, env.resultPath ∉ dirs → env.minSize ≤ zs.sum →
      log_command (env.exitCode s) (env.toolOut s) env.markers = false →
      env.uploadOk s = false →
      runLoop env dirs ((s, fs, zs) :: rest) =
        ([Ev.mkdirResults env.resultPath, Ev.invoke (buildCommand env fs)],
          env.resultPath :: dirs, some RunErr.uploadFailed)) := by
  refine ⟨fun dirs assigned p => runLoop_no_remove env p assigned dirs,
    fun dirs assigned d hd => runLoop_dirs_mono env d assigned dirs hd, ?_⟩
  intro dirs s fs zs rest hdir hsz hlog hup
  have hps : processSample env dirs s fs zs =
      ([Ev.mkdirResults env.resultPath, Ev.invoke (buildCommand env fs)],
        env.resultPath :: dirs, some RunErr.uploadFailed) := by
    unfold processSample
    rw [if_neg hdir, if_neg (by omega), if_neg (by rw [hlog]; exact Bool.false_ne_true),
      if_neg (by rw [hup]; exact Bool.false_ne_true)]
  unfold runLoop
  rw [hps]

def metaName : String := "metaS"

def rpEx : String := "/mnt/data/results"

def gdEx : String := "/mnt/genome/10X/human_GRCh38_gencode.v31"

def mdEx : String := "/mnt/data/metadata/meta.tsv"

def outEx : String := "velocyto/out"

/-- Oracle environment: upload of every sample raises. -/
def envU : LoopEnv :=
  { sampleName := metaName, genomeDir := gdEx, metadataDir := mdEx,
    resultPath := rpEx, minSize := 0, outKeyRoot := outEx, markers := [],
    exitCode := fun _ => 0, toolOut := fun _ => [], uploadOk := fun _ => false }

/-- Witness for C3 at a concrete run whose first upload raises: the run
stops with the upload error, the trace holds no removal event, and the
just-created working directory is still present in the final state. -/
theorem publish_then_cleanup_witness :
    runLoop envU [] [(nameA, [fA1], [1])] =
      ([Ev.mkdirResults rpEx, Ev.invoke (buildCommand envU [fA1])],
        [rpEx], some RunErr.uploadFailed) ∧
    Ev.removeDir rpEx ∉ (runLoop envU [] [(nameA, [fA1], [1])]).1 :=
  ⟨(publish_then_cleanup envU).2.2 [] nameA [fA1] [1] []
      (by simp) (by decide) (by decide) (by decide),
    (publish_then_cleanup envU).1 [] [(nameA, [fA1], [1])] rpEx⟩

/-- C6: the size gate at lines 225-227 skips a sample exactly when its
summed sizes are STRICTLY below the threshold: below → the iteration emits
the skip log and ends without error and without invocation; at or above →
the iteration reaches tool invocation and emits no skip. -/
theorem size_gate_strict (env : LoopEnv) (dirs : List String)
    (s : String) (fs : List String) (zs : List Nat)
    (hdir : env.resultPath ∉ dirs) :
    (zs.sum < env.minSize →
      processSample env dirs s fs zs =
        ([Ev.mkdirResults env.resultPath, Ev.skipSmall s],
          env.resultPath :: dirs, none)) ∧
    (env.minSize ≤ zs.sum →
      Ev.invoke (buildCommand env fs) ∈ (processSample env dirs s fs zs).1 ∧
      Ev.skipSmall s ∉ (processSample env dirs s fs zs).1) := by
  constructor
  · intro h
    unfold processSample
    rw [if_neg hdir, if_pos h]
  · intro h
    unfold processSample
    rw [if_neg hdir, if_neg (by omega)]
    split_ifs <;> simp

/-- Oracle environment with a size threshold of 10 bytes and successful
tool and upload oracles. -/
def envW : LoopEnv :=
  { sampleName := metaName, genomeDir := gdEx, metadataDir := mdEx,
    resultPath := rpEx, minSize := 10, outKeyRoot := outEx, markers := [],
    exitCode := fun _ => 0, toolOut := fun _ => [], uploadOk := fun _ => true }

/-- Witness for C6 at the boundary: summed sizes 9 (one byte below the
threshold 10) is skipped; summed sizes 10 (exactly the threshold) reaches
invocation. -/
theorem size_gate_strict_witness :
    (([9] : List Nat).sum < envW.minSize ∧
      processSample envW [] nameA [fA1] [9] =
        ([Ev.mkdirResults rpEx, Ev.skipSmall nameA], [rpEx], none)) ∧
    (envW.minSize ≤ ([4, 6] : List Nat).sum ∧
      Ev.invoke (buildCommand envW [fA1]) ∈ (processSample envW [] nameA [fA1] [4, 6]).1 ∧
      Ev.skipSmall nameA ∉ (processSample envW [] nameA [fA1] [4, 6]).1) :=
  ⟨⟨by decide, (size_gate_strict envW [] nameA [fA1] [9] (by simp)).1 (by decide)⟩,
    ⟨by decide, (size_gate_strict envW [] nameA [fA1] [4, 6] (by simp)).2 (by decide)⟩⟩

/-- C2: the invocation is classified as failed iff the exit code is
non-zero or a failure marker occurs in the captured combined output; and in
the run loop a gate-passing sample whose tool exits 0 but whose captured
output contains a known marker makes the run abort with the
`RuntimeError("loompy failed")` of lines 250-251. -/
theorem invocation_failure_classification :
    (∀ (e : Nat) (out : List Char) (ms : List (List Char)),
      log_command e out ms = true ↔ (e ≠ 0 ∨ ∃ m ∈ ms, containsSub m out = true)) ∧
    (∀ (env : LoopEnv) (dirs : List String) (s : String)
        (fs : List String) (zs : List Nat)
        (rest : List (String × List String × List Nat)),
      env.resultPath ∉ dirs → env.minSize ≤ zs.sum →
      env.exitCode s = 0 →
      (∃ m ∈ env.markers, containsSub m (env.toolOut s) = true) →
      runLoop env dirs ((s, fs, zs) :: rest) =
        ([Ev.mkdirResults env.resultPath, Ev.invoke (buildCommand env fs)],
          env.resultPath :: dirs, some RunErr.loompyFailed)) := by
  have hiff : ∀ (e : Nat) (out : List Char) (ms : List (List Char)),
      log_command e out ms = true ↔ (e ≠ 0 ∨ ∃ m ∈ ms, containsSub m out = true) := by
    intro e out ms
    simp [log_command, List.any_eq_true]
  refine ⟨hiff, ?_⟩
  intro env dirs s fs zs rest hdir hsz hexit hmark
  have hlog : log_command (env.exitCode s) (env.toolOut s) env.markers = true :=
    (hiff _ _ _).mpr (Or.inr hmark)
  have hps : processSample env dirs s fs zs =
      ([Ev.mkdirResults env.resultPath, Ev.invoke (buildCommand env fs)],
        env.resultPath :: dirs, some RunErr.loompyFailed) := by
    unfold processSample
    rw [if_neg hdir, if_neg (by omega), if_pos hlog]
  unfold runLoop
  rw [hps]

def markErr : String := "Error"

def outErr : String := "2020-01-01 Error: KeyError in fromfq"

/-- Oracle environment whose tool exits 0 but prints a failure marker. -/
def envM : LoopEnv :=
  { sampleName := metaName, genomeDir := gdEx, metadataDir := mdEx,
    resultPath := rpEx, minSize := 0, outKeyRoot := outEx,
    markers := [markErr.data],
    exitCode := fun _ => 0, toolOut := fun _ => outErr.data,
    uploadOk := fun _ => true }

/-- Witness for C2: exit code 0 with the marker `Error` in the captured
output classifies as failed and aborts the run. -/
theorem invocation_failure_classification_witness :
    (envM.exitCode nameA = 0 ∧
      containsSub markErr.data (envM.toolOut nameA) = true) ∧
    runLoop envM [] [(nameA, [fA1], [1])] =
      ([Ev.mkdirResults rpEx, Ev.invoke (buildCommand envM [fA1])],
        [rpEx], some RunErr.loompyFailed) :=
  ⟨⟨by decide, by decide⟩,
    (invocation_failure_classification).2 envM [] nameA [fA1] [1] []
      (by simp) (by decide) (by decide)
      ⟨markErr.data, by decide, by decide⟩⟩

/-- Oracle environment for a fully successful run: tool exits 0 with no
marker in its output, every upload succeeds, threshold 0. -/
def envC4 : LoopEnv :=
  { sampleName := metaName, genomeDir := gdEx, metadataDir := mdEx,
    resultPath := rpEx, minSize := 0, outKeyRoot := outEx, markers := [],
    exitCode := fun _ => 0, toolOut := fun _ => [], uploadOk := fun _ => true }

/-- Two discovered, gate-passing samples assigned to this shard. -/
def assignedC4 : List (String × List String × List Nat) :=
  [(nameA, [fA1, fA2], [1, 2]), (nameB, [fB1], [3])]

def artLoc : String := "/mnt/data/results/metaS.loom"

def artKey : String := "velocyto/out/metaS.loom"

/-- C4 is violated by the code (code bug): with two discovered gate-passing
samples `sA` and `sB` and fully successful tool and upload oracles, the run
builds the command and the upload name from `sample_name` — the single name
`metaS` read from the metadata file (lines 232-233, 253-257) — not from the
loop variable `sample`, uploads exactly one artifact `metaS.loom`, removes
nothing, and aborts with the unbound `dest_dir` name at cleanup (line 261),
so the sample's working directory still exists and `sB` is never reached.
Distinct samples do NOT get distinctly named artifacts. -/
theorem artifact_naming_and_cleanup_bug :
    runLoop envC4 [] assignedC4 =
      ([Ev.mkdirResults rpEx,
        Ev.invoke ["loompy", "fromfq", "metaS.loom", "metaS", gdEx, mdEx, fA1, fA2],
        Ev.uploadArtifact artLoc artKey],
        [rpEx], some RunErr.nameErrorDestDir) ∧
    ((runLoop envC4 [] assignedC4).1.filter isRemoveDir).length = 0 ∧
    ((runLoop envC4 [] assignedC4).1.filter isUpload).length = 1 := by
  refine ⟨?_, rfl, rfl⟩
  rfl

/-- C9 counterexample: in the run of `envC4` over `assignedC4` both
assigned samples pass the size gate (sums 3 and 3 against threshold 0), yet
no second results-directory creation ever happens — exactly one `mkdir`
event is emitted and the run aborts inside the FIRST sample's iteration
with the unbound `dest_dir` cleanup error, not with an already-exists
directory error. -/
theorem second_sample_mkdir_cex :
    (envC4.minSize ≤ ([1, 2] : List Nat).sum ∧
      envC4.minSize ≤ ([3] : List Nat).sum) ∧
    (runLoop envC4 [] assignedC4).2.2 = some RunErr.nameErrorDestDir ∧
    ((runLoop envC4 [] assignedC4).1.filter isMkdir).length = 1 :=
  ⟨⟨by decide, by decide⟩, rfl, rfl⟩

/-- C9 amended: the results path is one fixed path, created without
tolerating an existing directory — but an already-exists failure is only
reachable when the first assigned sample is SKIPPED by the size gate, in
which case the second iteration fails at directory creation before its size
gate or invocation.  A first sample that passes the gate always aborts the
run within its own iteration (invocation failure, upload failure, or the
unbound `dest_dir` cleanup), emitting exactly one directory creation, so
the second assigned sample is never processed at all. -/
theorem second_iteration_mkdir (env : LoopEnv) (dirs : List String)
    (s1 s2 : String) (f1 f2 : List String) (z1 z2 : List Nat)
    (rest : List (String × List String × List Nat))
    (hdir : env.resultPath ∉ dirs) :
    (z1.sum < env.minSize →
      runLoop env dirs ((s1, f1, z1) :: (s2, f2, z2) :: rest) =
        ([Ev.mkdirResults env.resultPath, Ev.skipSmall s1],
          env.resultPath :: dirs, some (RunErr.fileExists env.resultPath))) ∧
    (env.minSize ≤ z1.sum →
      ((runLoop env dirs ((s1, f1, z1) :: rest)).2.2 = some RunErr.loompyFailed ∨
        (runLoop env dirs ((s1, f1, z1) :: rest)).2.2 = some RunErr.uploadFailed ∨
        (runLoop env dirs ((s1, f1, z1) :: rest)).2.2 = some RunErr.nameErrorDestDir) ∧
      ((runLoop env dirs ((s1, f1, z1) :: rest)).1.filter isMkdir).length = 1) := by
  constructor
  · intro h
    have hps1 : processSample env dirs s1 f1 z1 =
        ([Ev.mkdirResults env.resultPath, Ev.skipSmall s1],
          env.resultPath :: dirs, none) := by
      unfold processSample
      rw [if_neg hdir, if_pos h]
    have hps2 : processSample env (env.resultPath :: dirs) s2 f2 z2 =
        ([], env.resultPath :: dirs, some (RunErr.fileExists env.resultPath)) := by
      unfold processSample
      rw [if_pos (List.mem_cons_self env.resultPath dirs)]
    show (match processSample env dirs s1 f1 z1 with
      | (evs, dirs1, some e) => (evs, dirs1, some e)
      | (evs, dirs1, none) =>
        let r := runLoop env dirs1 ((s2, f2, z2) :: rest)
        (evs ++ r.1, r.2.1, r.2.2)) = _
    rw [hps1]
    show ((_ : List Ev) ++ (runLoop env (env.resultPath :: dirs) ((s2, f2, z2) :: rest)).1,
      _, _) = _
    have hloop2 : runLoop env (env.resultPath :: dirs) ((s2, f2, z2) :: rest) =
        ([], env.resultPath :: dirs, some (RunErr.fileExists env.resultPath)) := by
      show (match processSample env (env.resultPath :: dirs) s2 f2 z2 with
        | (evs, dirs1, some e) => (evs, dirs1, some e)
        | (evs, dirs1, none) =>
          let r := runLoop env dirs1 rest
          (evs ++ r.1, r.2.1, r.2.2)) = _
      rw [hps2]
    rw [hloop2]
    simp
  · intro h
    have hinv : ∀ evs dirs1 e, processSample env dirs s1 f1 z1 = (evs, dirs1, some e) →
        runLoop env dirs ((s1, f1, z1) :: rest) = (evs, dirs1, some e) := by
      intro evs dirs1 e hps
      show (match processSample env dirs s1 f1 z1 with
        | (evs, dirs1, some e) => (evs, dirs1, some e)
        | (evs, dirs1, none) =>
          let r := runLoop env dirs1 rest
          (evs ++ r.1, r.2.1, r.2.2)) = _
      rw [hps]
    by_cases h1 : log_command (env.exitCode s1) (env.toolOut s1) env.markers = true
    · have hps : processSample env dirs s1 f1 z1 =
          ([Ev.mkdirResults env.resultPath, Ev.invoke (buildCommand env f1)],
            env.resultPath :: dirs, some RunErr.loompyFailed) := by
        unfold processSample
        rw [if_neg hdir, if_neg (by omega), if_pos h1]
      rw [hinv _ _ _ hps]
      exact ⟨Or.inl rfl, rfl⟩
    · by_cases h2 : env.uploadOk s1 = true
      · have hps : processSample env dirs s1 f1 z1 =
            ([Ev.mkdirResults env.resultPath, Ev.invoke (buildCommand env f1),
              Ev.uploadArtifact (env.resultPath ++ "/" ++ env.sampleName ++ ".loom")
                (env.outKeyRoot ++ "/" ++ env.sampleName ++ ".loom")],
              env.resultPath :: dirs, some RunErr.nameErrorDestDir) := by
          unfold processSample
          rw [if_neg hdir, if_neg (by omega), if_neg h1, if_pos h2]
        rw [hinv _ _ _ hps]
        exact ⟨Or.inr (Or.inr rfl), rfl⟩
      · have hps : processSample env dirs s1 f1 z1 =
            ([Ev.mkdirResults env.resultPath, Ev.invoke (buildCommand env f1)],
              env.resultPath :: dirs, some RunErr.uploadFailed) := by
          unfold processSample
          rw [if_neg hdir, if_neg (by omega), if_neg h1, if_neg h2]
        rw [hinv _ _ _ hps]
        exact ⟨Or.inr (Or.inl rfl), rfl⟩

/-- Witness for C9's amended statement: a gate-skipped first sample makes
the second iteration fail at directory creation; a gate-passing sample
yields exactly one directory creation before the run aborts. -/
theorem second_iteration_mkdir_witness :
    (([5] : List Nat).sum < envW.minSize ∧
      runLoop envW [] [(nameA, [fA1], [5]), (nameB, [fB1], [12])] =
        ([Ev.mkdirResults rpEx, Ev.skipSmall nameA],
          [rpEx], some (RunErr.fileExists rpEx))) ∧
    (envW.minSize ≤ ([12] : List Nat).sum ∧
      ((runLoop envW [] [(nameB, [fB1], [12])]).1.filter isMkdir).length = 1) :=
  ⟨⟨by decide,
      (second_iteration_mkdir envW [] nameA nameB [fA1] [fB1] [5] [12] []
        (by simp)).1 (by decide)⟩,
    ⟨by decide,
      ((second_iteration_mkdir envW [] nameB nameA [fB1] [fA1] [12] [5] []
        (by simp)).2 (by decide)).2⟩⟩
